import Mathlib

/-!
Shallow embedding of the go-numbers service (`numbers.go`, context-based
version): the set helpers (`setAdd`, `setToArray`), the HTTP source client
(`NumbersGetterHttp.get`), the fan-in collector (`collectNumbers`), the
producer task (`fetchNumbers`) and the `/numbers` request handler
(`makeNumbersHandler`).

The Go `map[int]struct{}` set is embedded as `Finset Int`.  The concurrent
channel/context machinery is embedded as an explicit trace of `select`
resolutions: each loop iteration of the collector resolves either to a
channel receive carrying one task's slice, or to the context's done signal.
A Go slice `[]int` that may be `nil` is embedded as `Option (List Int)`
where it matters (JSON marshalling distinguishes `nil`, which encodes to
`null`, from a non-nil slice); where only the elements matter (ranging,
`setAdd`) it is a plain `List Int`.
-/

/-- Go `map[int]struct{}`: a finite set of integers. -/
abbrev IntSet := Finset Int

/-- `setAdd(set, value...)`: insert every element of `value` into `set`. -/
def setAdd (set : IntSet) (value : List Int) : IntSet :=
  value.foldl (fun s v => insert v s) set

/-- `setToArray(set)`: the ascending array of the set's members
(`sort.Ints` applied to the elements; Go map iteration order is irrelevant
after the sort). -/
def setToArray (set : IntSet) : List Int :=
  set.sort (· ≤ ·)

/-- In Go, `setToArray` declares `var result []int` (a nil slice) and
appends one element per member, so the returned slice is nil exactly when
the set is empty.  `encoding/json` marshals a nil `[]int` as `null`. -/
def setToArrayIsNil (set : IntSet) : Bool :=
  set = ∅

/-- What one call of `NumbersGetterHttp.get` observes from the outside
world: `http.NewRequest` failing, `client.Do` failing (transport error or
context cancellation), or a reachable response. -/
inductive HttpOutcome where
  /-- `http.NewRequest` returned a non-nil error. -/
  | reqError
  /-- `client.Do` returned a non-nil error (transport failure or the
  context was cancelled mid-flight). -/
  | doError
  /-- A response arrived: its status code, whether `ioutil.ReadAll` on the
  body failed, and the result of `json.Unmarshal` into `Numbers`
  (`none` = decode error, `some ns` = the decoded `numbers` field). -/
  | reply (status : Int) (readErr : Bool) (decoded : Option (List Int))
deriving DecidableEq, Repr

/-- The triple returned by `NumbersGetter.get`: numbers slice (`none` when
nil), HTTP status code (-1 on error), and whether the returned error is
non-nil. -/
structure GetResult where
  numbers : Option (List Int)
  status : Int
  isError : Bool
deriving DecidableEq, Repr

/-- `NumbersGetterHttp.get(ctx, url)`, line by line: request-construction
error, transport error, non-200 status (checked before the body is read or
decoded), body read error, decode error, success. -/
def NumbersGetterHttp.get : HttpOutcome → GetResult
  | .reqError => ⟨none, -1, true⟩
  | .doError => ⟨none, -1, true⟩
  | .reply status readErr decoded =>
    if status ≠ 200 then ⟨none, status, false⟩
    else if readErr then ⟨none, -1, true⟩
    else
      match decoded with
      | none => ⟨none, -1, true⟩
      | some ns => ⟨some ns, status, false⟩

/-- `fetchNumbers(ctx, g, url, c)`: the slice the producer task offers to
the channel.  `var result []int` stays nil (here: `[]`) when `get` returned
an error or a non-200 status; otherwise it is the fetched numbers. -/
def fetchNumbers (o : HttpOutcome) : List Int :=
  let r := NumbersGetterHttp.get o
  if r.isError then []
  else if r.status ≠ 200 then []
  else (r.numbers).getD []

/-- The numbers of a fully successful retrieval, `none` for any failure. -/
def successNumbers (o : HttpOutcome) : Option (List Int) :=
  let r := NumbersGetterHttp.get o
  if r.isError then none
  else if r.status ≠ 200 then none
  else r.numbers

/-- One resolution of the collector's `select`: a receive from channel `c`,
or `ctx.Done()` firing. -/
inductive ChanEvent where
  | recv (numbers : List Int)
  | ctxDone
deriving DecidableEq, Repr

/-- Is the event a channel receive? -/
def ChanEvent.isRecv : ChanEvent → Bool
  | .recv _ => true
  | .ctxDone => false

/-- The collector loop of `collectNumbers`: while `expected > 0`, resolve
the `select`; a receive merges the slice via `setAdd` and decrements
`expected`; `ctx.Done()` sets `expected = 0` (exit, keeping the set built
so far).  Returns the final set together with the unconsumed remainder of
the trace; `none` embeds the loop blocking forever because no further
`select` resolution ever happens. -/
def collectLoop : IntSet → Nat → List ChanEvent → Option (IntSet × List ChanEvent)
  | result, 0, events => some (result, events)
  | _, _ + 1, [] => none
  | result, e + 1, .recv numbers :: rest => collectLoop (setAdd result numbers) e rest
  | result, _ + 1, .ctxDone :: rest => some (result, rest)

/-- `collectNumbers(ctx, expected, c)`: run the loop from an empty set and
return the sorted array of the final set. -/
def collectNumbers (expected : Nat) (events : List ChanEvent) : Option (List Int) :=
  (collectLoop ∅ expected events).map fun p => setToArray p.1

/-- Go's decimal rendering of an `[]int` JSON array, `[n,...,n]`. -/
def encodeIntList (l : List Int) : String :=
  "[" ++ String.intercalate "," (l.map toString) ++ "]"

/-- `json.Marshal(Numbers{Numbers: numbers})` where `numbers` comes from
`setToArray`: a nil slice (empty set) marshals to `null`, a non-nil slice
to a JSON array. -/
def marshalNumbers (numbers : List Int) : String :=
  if numbers.isEmpty then "\x7b\"numbers\":null\x7d"
  else "\x7b\"numbers\":" ++ encodeIntList numbers ++ "\x7d"

/-- The response the handler writes. -/
structure HttpResponse where
  status : Nat
  contentType : String
  body : String
deriving DecidableEq, Repr

/-- The handler built by `makeNumbersHandler(g)`, as a function of the
parsed `u` parameters and the collector's `select` trace: collect with
`expected = len(urls)`, marshal, write 200 with `application/json`. -/
def makeNumbersHandler (urls : List String) (events : List ChanEvent) : Option HttpResponse :=
  (collectNumbers urls.length events).map fun numbers =>
    ⟨200, "application/json", marshalNumbers numbers⟩

/-- The statements of the handler body in `makeNumbersHandler`, in source
order.  `withTimeout d` is `ctx, _ := context.WithTimeout(r.Context(),
500*time.Millisecond)`; `d = true` records that the returned `CancelFunc`
is bound to `_` (discarded).  `cancelScope` would be a call of that
`CancelFunc`; the source contains no such call. -/
inductive HandlerStep where
  | recordStart
  | parseQuery
  | makeChannel
  | withTimeout (discardsCancel : Bool)
  | spawnFetchTasks
  | runCollect
  | marshalJson
  | setContentType
  | writeHeader
  | writeBody
  | logElapsed
  | cancelScope
deriving DecidableEq, Repr

/-- The body of the closure returned by `makeNumbersHandler`, statement by
statement (`numbers.go`, context-based version, lines 113-128). -/
def numbersHandlerSteps : List HandlerStep :=
  [.recordStart, .parseQuery, .makeChannel, .withTimeout true, .spawnFetchTasks,
   .runCollect, .marshalJson, .setContentType, .writeHeader, .writeBody, .logElapsed]

/-- Merge a list of received slices into a set, the way the collector does
(`setAdd` in arrival order, starting from the empty set). -/
def listsUnion (sources : List (List Int)) : IntSet :=
  sources.foldl setAdd ∅

/-! ### Helper lemmas about the set operations -/

theorem setAdd_nil (set : IntSet) : setAdd set [] = set := rfl

theorem setAdd_cons (set : IntSet) (v : Int) (vs : List Int) :
    setAdd set (v :: vs) = setAdd (insert v set) vs := rfl

theorem mem_setAdd (value : List Int) (set : IntSet) (a : Int) :
    a ∈ setAdd set value ↔ a ∈ set ∨ a ∈ value := by
  induction value generalizing set with
  | nil => simp [setAdd_nil]
  | cons v vs ih =>
    rw [setAdd_cons, ih]
    simp [Finset.mem_insert]
    tauto

theorem subset_setAdd (set : IntSet) (value : List Int) : set ⊆ setAdd set value := by
  intro a ha
  exact (mem_setAdd value set a).2 (Or.inl ha)

theorem mem_foldl_setAdd (sources : List (List Int)) (set : IntSet) (a : Int) :
    a ∈ sources.foldl setAdd set ↔ a ∈ set ∨ ∃ l ∈ sources, a ∈ l := by
  induction sources generalizing set with
  | nil => simp
  | cons l ls ih =>
    rw [List.foldl_cons, ih, mem_setAdd]
    simp
    tauto

theorem mem_listsUnion (sources : List (List Int)) (a : Int) :
    a ∈ listsUnion sources ↔ ∃ l ∈ sources, a ∈ l := by
  rw [listsUnion, mem_foldl_setAdd]
  simp

theorem mem_setToArray (set : IntSet) (a : Int) : a ∈ setToArray set ↔ a ∈ set :=
  Finset.mem_sort _

theorem setToArray_sorted (set : IntSet) : List.Sorted (· < ·) (setToArray set) :=
  Finset.sort_sorted_lt set

/-- `setToArray` is determined by membership: any strictly ascending list
with the same members is the result. -/
theorem setToArray_eq (set : IntSet) (l : List Int)
    (hs : List.Sorted (· < ·) l) (hm : ∀ a, a ∈ l ↔ a ∈ set) :
    setToArray set = l := by
  have hnd : l.Nodup := hs.nodup
  have hnd2 : (setToArray set).Nodup := Finset.sort_nodup _ _
  have hp : (setToArray set).Perm l := by
    rw [List.perm_ext_iff_of_nodup hnd2 hnd]
    intro a
    rw [mem_setToArray, hm]
  exact List.eq_of_perm_of_sorted hp (Finset.sort_sorted _ _) (hs.le_of_lt)

/-! ### Helper lemmas about the collector loop -/

/-- When exactly `sources.length` receives arrive, the loop consumes them
all, folding each slice into the set, and stops with `expected = 0`. -/
theorem collectLoop_recvs (sources : List (List Int)) (set : IntSet) (rest : List ChanEvent) :
    collectLoop set sources.length (sources.map ChanEvent.recv ++ rest) =
      some (sources.foldl setAdd set, rest) := by
  induction sources generalizing set with
  | nil => rfl
  | cons l ls ih =>
    simp only [List.length_cons, List.map_cons, List.cons_append]
    rw [collectLoop, ih]
    rfl

/-- When fewer receives arrive than expected and then the context fires,
the loop keeps what it merged and stops at the done signal. -/
theorem collectLoop_cancel (sources : List (List Int)) (set : IntSet) (n : Nat)
    (h : sources.length < n) (rest : List ChanEvent) :
    collectLoop set n (sources.map ChanEvent.recv ++ ChanEvent.ctxDone :: rest) =
      some (sources.foldl setAdd set, rest) := by
  induction sources generalizing set n with
  | nil =>
    obtain ⟨m, rfl⟩ : ∃ m, n = m + 1 := ⟨n - 1, by omega⟩
    rfl
  | cons l ls ih =>
    obtain ⟨m, rfl⟩ : ∃ m, n = m + 1 := ⟨n - 1, by omega⟩
    simp only [List.map_cons, List.cons_append]
    rw [collectLoop, ih (setAdd set l) m (by simpa using h)]
    rfl

/-- Collecting exactly the traces of all sources yields the sorted union. -/
theorem collectNumbers_recvs (sources : List (List Int)) :
    collectNumbers sources.length (sources.map ChanEvent.recv) =
      some (setToArray (listsUnion sources)) := by
  rw [collectNumbers, show sources.map ChanEvent.recv = sources.map ChanEvent.recv ++ [] from by simp,
    collectLoop_recvs]
  rfl

/-! ### Claim theorems -/

/-- C8: with `expected = 0` (zero identifiers) the collector loop exits at
once with the empty set, consuming no channel event and no done signal
(the whole trace is left unconsumed), and `collectNumbers` returns the
empty sequence. -/
theorem collect_empty_input (events : List ChanEvent) :
    collectLoop ∅ 0 events = some (∅, events) ∧ collectNumbers 0 events = some [] := by
  refine ⟨rfl, ?_⟩
  simp [collectNumbers, collectLoop, setToArray]

/-- C7: the two reference scenarios: sources `[1,3]` and `[2]` collect to
`[1,2,3]`; sources `[9,1]`, `[1]`, `[5,1,42]` collect to `[1,5,9,42]`. -/
theorem collect_concrete_scenarios :
    collectNumbers 2 [ChanEvent.recv [1, 3], ChanEvent.recv [2]] = some [1, 2, 3] ∧
    collectNumbers 3 [ChanEvent.recv [9, 1], ChanEvent.recv [1], ChanEvent.recv [5, 1, 42]] =
      some [1, 5, 9, 42] := by
  constructor
  · have h := collectNumbers_recvs [[1, 3], [2]]
    rw [setToArray_eq (listsUnion [[1, 3], [2]]) [1, 2, 3] (by decide) ?_] at h
    · exact h
    · intro a
      rw [mem_listsUnion]
      simp
      tauto
  · have h := collectNumbers_recvs [[9, 1], [1], [5, 1, 42]]
    rw [setToArray_eq (listsUnion [[9, 1], [1], [5, 1, 42]]) [1, 5, 9, 42] (by decide) ?_] at h
    · exact h
    · intro a
      rw [mem_listsUnion]
      simp
      tauto

/-- C4: the three-way taxonomy of `NumbersGetterHttp.get`: a 200 response
with decodable payload returns the decoded sequence, status 200 and no
error; a reachable non-200 response returns no sequence, the received
status and no error; a request-construction failure, transport failure,
body-read failure or decode failure returns no sequence and status -1. -/
theorem get_result_taxonomy :
    (∀ ns : List Int,
      NumbersGetterHttp.get (HttpOutcome.reply 200 false (some ns)) = ⟨some ns, 200, false⟩) ∧
    (∀ (status : Int) (readErr : Bool) (decoded : Option (List Int)), status ≠ 200 →
      NumbersGetterHttp.get (HttpOutcome.reply status readErr decoded) = ⟨none, status, false⟩) ∧
    NumbersGetterHttp.get HttpOutcome.reqError = ⟨none, -1, true⟩ ∧
    NumbersGetterHttp.get HttpOutcome.doError = ⟨none, -1, true⟩ ∧
    (∀ decoded : Option (List Int),
      NumbersGetterHttp.get (HttpOutcome.reply 200 true decoded) = ⟨none, -1, true⟩) ∧
    NumbersGetterHttp.get (HttpOutcome.reply 200 false none) = ⟨none, -1, true⟩ := by
  refine ⟨fun ns => rfl, fun status readErr decoded h => ?_, rfl, rfl, fun decoded => rfl, rfl⟩
  simp only [NumbersGetterHttp.get]
  simp [h]

/-- C4 witness: a 404 response with a well-formed payload evaluates to
no sequence, status 404, no error. -/
theorem get_result_taxonomy_witness :
    NumbersGetterHttp.get (HttpOutcome.reply 404 true (some [7])) = ⟨none, 404, false⟩ :=
  get_result_taxonomy.2.1 404 true (some [7]) (by decide)

/-- C10: for every non-200 status the getter returns no sequence, the
received status and no error, independently of the body (the body is
neither read nor decoded: the result does not depend on `readErr` or
`decoded`), and the producer task's payload for such a response is the
empty slice. -/
theorem get_non_ok_skips_body (status : Int) (readErr : Bool) (decoded : Option (List Int))
    (h : status ≠ 200) :
    NumbersGetterHttp.get (HttpOutcome.reply status readErr decoded) = ⟨none, status, false⟩ ∧
    fetchNumbers (HttpOutcome.reply status readErr decoded) = [] := by
  have hg : NumbersGetterHttp.get (HttpOutcome.reply status readErr decoded) =
      ⟨none, status, false⟩ := by
    simp only [NumbersGetterHttp.get]
    simp [h]
  refine ⟨hg, ?_⟩
  simp [fetchNumbers, hg, h]

/-- C10 witness: a 404 reply carrying the decodable payload `[1,2,3]`
still contributes no integers. -/
theorem get_non_ok_skips_body_witness :
    NumbersGetterHttp.get (HttpOutcome.reply 404 false (some [1, 2, 3])) = ⟨none, 404, false⟩ ∧
    fetchNumbers (HttpOutcome.reply 404 false (some [1, 2, 3])) = [] :=
  get_non_ok_skips_body 404 false (some [1, 2, 3]) (by decide)

/-- C2 counterexample: the handler body contains no call of the
`CancelFunc` (no explicit cancellation of the deadline scope) — the claim
that every invocation explicitly cancels the scope after the collector
returns is false. -/
theorem cancelScope_not_in_handler : HandlerStep.cancelScope ∉ numbersHandlerSteps := by
  decide

/-- C2 amended: the handler discards the `CancelFunc` returned by
`context.WithTimeout` (binds it to `_`) and never cancels the scope
explicitly; the scope is cancelled only by the 500 ms deadline or by the
inbound request's own context. -/
theorem handler_discards_cancel :
    HandlerStep.withTimeout true ∈ numbersHandlerSteps ∧
    HandlerStep.cancelScope ∉ numbersHandlerSteps := by
  decide

/-- C5: collecting any source sequences yields the sorted array of their
union: the output is strictly ascending, its members are exactly the
integers appearing in some source sequence, and each such distinct integer
occurs exactly once. -/
theorem result_sorted_dedup (sources : List (List Int)) :
    collectNumbers sources.length (sources.map ChanEvent.recv) =
      some (setToArray (listsUnion sources)) ∧
    List.Sorted (· < ·) (setToArray (listsUnion sources)) ∧
    (∀ a : Int, a ∈ setToArray (listsUnion sources) ↔ ∃ l ∈ sources, a ∈ l) ∧
    (∀ a : Int, a ∈ setToArray (listsUnion sources) →
      (setToArray (listsUnion sources)).count a = 1) := by
  refine ⟨collectNumbers_recvs sources, setToArray_sorted _, fun a => ?_, fun a ha => ?_⟩
  · rw [mem_setToArray, mem_listsUnion]
  · exact List.count_eq_one_of_mem (Finset.sort_nodup _ _) ha

/-- C5 witness: on sources `[1,3]` and `[2]` with duplicates absent, the
output is sorted and the integer 3 occurs exactly once. -/
theorem result_sorted_dedup_witness :
    List.Sorted (· < ·) (setToArray (listsUnion [[1, 3], [2]])) ∧
    (setToArray (listsUnion [[1, 3], [2]])).count 3 = 1 := by
  refine ⟨(result_sorted_dedup [[1, 3], [2]]).2.1, ?_⟩
  apply (result_sorted_dedup [[1, 3], [2]]).2.2.2
  exact ((result_sorted_dedup [[1, 3], [2]]).2.2.1 3).mpr ⟨[1, 3], by simp, by simp⟩

/-- C6: the merge is commutative: delivering any permutation of the source
sequences produces the identical result. -/
theorem merge_commutative (pss qss : List (List Int)) (h : pss.Perm qss) :
    collectNumbers pss.length (pss.map ChanEvent.recv) =
      collectNumbers qss.length (qss.map ChanEvent.recv) := by
  rw [collectNumbers_recvs, collectNumbers_recvs]
  have hu : listsUnion pss = listsUnion qss := by
    apply Finset.ext
    intro a
    rw [mem_listsUnion, mem_listsUnion]
    constructor
    · rintro ⟨l, hl, hal⟩
      exact ⟨l, h.mem_iff.1 hl, hal⟩
    · rintro ⟨l, hl, hal⟩
      exact ⟨l, h.mem_iff.2 hl, hal⟩
  rw [hu]

/-- C6 witness: the sources `[1]`, `[2]` collected in either arrival order
give the same result. -/
theorem merge_commutative_witness :
    collectNumbers 2 [ChanEvent.recv [1], ChanEvent.recv [2]] =
      collectNumbers 2 [ChanEvent.recv [2], ChanEvent.recv [1]] :=
  merge_commutative [[1], [2]] [[2], [1]] (List.Perm.swap [2] [1] [])

/-- The payload a producer task sends is exactly the numbers of a fully
successful retrieval, defaulting to the empty slice on any failure. -/
theorem fetchNumbers_getD (o : HttpOutcome) :
    fetchNumbers o = (successNumbers o).getD [] := by
  simp only [fetchNumbers, successNumbers]
  by_cases h1 : (NumbersGetterHttp.get o).isError = true
  · simp [h1]
  · by_cases h2 : (NumbersGetterHttp.get o).status = 200
    · simp [h1, h2]
    · simp [h1, h2]

/-- The union of the payloads of all delivered tasks equals the union of
the successful retrievals only: failed tasks contribute nothing. -/
theorem listsUnion_fetch_eq (outcomes : List HttpOutcome) :
    listsUnion (outcomes.map fetchNumbers) =
      listsUnion (outcomes.filterMap successNumbers) := by
  apply Finset.ext
  intro a
  rw [mem_listsUnion, mem_listsUnion]
  simp only [List.mem_map, List.mem_filterMap]
  constructor
  · rintro ⟨l, ⟨o, ho, rfl⟩, hal⟩
    rw [fetchNumbers_getD] at hal
    cases hs : successNumbers o with
    | none => rw [hs] at hal; simp at hal
    | some ns =>
      rw [hs] at hal
      exact ⟨ns, ⟨o, ho, hs⟩, hal⟩
  · rintro ⟨ns, ⟨o, ho, hs⟩, hans⟩
    refine ⟨fetchNumbers o, ⟨o, ho, rfl⟩, ?_⟩
    rw [fetchNumbers_getD, hs]
    exact hans

/-- C3: when the delivered outcomes are fewer than the dispatched count and
the deadline then fires, collection returns (no error, no blocking) the
sorted union of the successful retrievals only: each failed task delivered
an empty slice, which decremented the expected count without contributing
integers, and everything merged before cancellation is kept. -/
theorem collect_failures_excluded (outcomes : List HttpOutcome) (n : Nat)
    (h : outcomes.length < n) :
    (∀ o : HttpOutcome, successNumbers o = none → fetchNumbers o = []) ∧
    collectNumbers n
        (outcomes.map (fun o => ChanEvent.recv (fetchNumbers o)) ++ [ChanEvent.ctxDone]) =
      some (setToArray (listsUnion (outcomes.filterMap successNumbers))) := by
  constructor
  · intro o ho
    rw [fetchNumbers_getD, ho]
    rfl
  · rw [collectNumbers]
    have hmap : (outcomes.map fun o => ChanEvent.recv (fetchNumbers o)) =
        (outcomes.map fetchNumbers).map ChanEvent.recv := by
      simp [List.map_map]
    rw [hmap, collectLoop_cancel (outcomes.map fetchNumbers) ∅ n (by simpa using h) []]
    simp only [Option.map_some']
    rw [show (outcomes.map fetchNumbers).foldl setAdd ∅ =
      listsUnion (outcomes.map fetchNumbers) from rfl]
    rw [listsUnion_fetch_eq]

/-- C3 witness: one source succeeding with `[3,1]` and one transport
failure, under a dispatch count of 3 (the third never delivers before the
deadline), yield exactly `[1,3]`. -/
theorem collect_failures_excluded_witness :
    collectNumbers 3 [ChanEvent.recv [3, 1], ChanEvent.recv [], ChanEvent.ctxDone] =
      some [1, 3] := by
  have h := (collect_failures_excluded
    [HttpOutcome.reply 200 false (some [3, 1]), HttpOutcome.doError] 3 (by decide)).2
  rw [setToArray_eq _ [1, 3] (by decide) ?_] at h
  · exact h
  · intro a
    rw [mem_listsUnion]
    show a ∈ [1, 3] ↔ ∃ l ∈ [[3, 1]], a ∈ l
    simp
    tauto

/-- C9: collector invariants: whenever the loop terminates, (i) the final
set contains the starting set (growth only, nothing removed), and (ii) the
consumed prefix of the trace contains at most `n` channel receives (no
more outcomes are merged than identifiers dispatched), and rerunning the
loop on the consumed prefix followed by anything at all gives the same
final set (an outcome arriving after the loop stopped is never merged). -/
theorem collect_invariants (set : IntSet) (n : Nat) (events : List ChanEvent)
    (finalSet : IntSet) (rest : List ChanEvent)
    (h : collectLoop set n events = some (finalSet, rest)) :
    set ⊆ finalSet ∧
    ∃ pre : List ChanEvent, events = pre ++ rest ∧
      pre.countP ChanEvent.isRecv ≤ n ∧
      ∀ rest2 : List ChanEvent, collectLoop set n (pre ++ rest2) = some (finalSet, rest2) := by
  induction events generalizing set n with
  | nil =>
    cases n with
    | zero =>
      simp only [collectLoop, Option.some.injEq, Prod.mk.injEq] at h
      obtain ⟨rfl, rfl⟩ := h
      exact ⟨Finset.Subset.refl _, [], rfl, by simp, fun rest2 => rfl⟩
    | succ m => simp [collectLoop] at h
  | cons ev tl ih =>
    cases n with
    | zero =>
      simp only [collectLoop, Option.some.injEq, Prod.mk.injEq] at h
      obtain ⟨rfl, rfl⟩ := h
      exact ⟨Finset.Subset.refl _, [], rfl, by simp, fun rest2 => rfl⟩
    | succ m =>
      cases ev with
      | recv ns =>
        rw [show collectLoop set (m + 1) (ChanEvent.recv ns :: tl) =
          collectLoop (setAdd set ns) m tl from rfl] at h
        obtain ⟨hsub, pre, rfl, hcount, hrun⟩ := ih (setAdd set ns) m h
        refine ⟨(subset_setAdd set ns).trans hsub, ChanEvent.recv ns :: pre, rfl, ?_, ?_⟩
        · simp only [List.countP_cons, ChanEvent.isRecv, if_true]
          omega
        · intro rest2
          rw [List.cons_append]
          exact hrun rest2
      | ctxDone =>
        simp only [collectLoop, Option.some.injEq, Prod.mk.injEq] at h
        obtain ⟨rfl, rfl⟩ := h
        exact ⟨Finset.Subset.refl _, [ChanEvent.ctxDone], rfl,
          by simp [ChanEvent.isRecv], fun rest2 => rfl⟩

/-- C9 witness: one receive under an expected count of 1: the set grew from
empty, one receive was merged, and appending any events after the consumed
prefix changes nothing. -/
theorem collect_invariants_witness :
    (∅ : IntSet) ⊆ setAdd ∅ [5] ∧
    ∃ pre : List ChanEvent, [ChanEvent.recv [5]] = pre ++ [] ∧
      pre.countP ChanEvent.isRecv ≤ 1 ∧
      ∀ rest2 : List ChanEvent, collectLoop ∅ 1 (pre ++ rest2) = some (setAdd ∅ [5], rest2) :=
  collect_invariants ∅ 1 [ChanEvent.recv [5]] (setAdd ∅ [5]) [] rfl

/-- C1 counterexample: with zero identifiers the handler's response body is
`\x7b"numbers":null\x7d` — a null value, not the empty array
`\x7b"numbers":[]\x7d` the claim promises, because `setToArray` of the
empty set is a nil slice and `json.Marshal` encodes a nil `[]int` as
`null`. -/
theorem empty_aggregate_marshals_null :
    makeNumbersHandler [] [] =
      some ⟨200, "application/json", "\x7b\"numbers\":null\x7d"⟩ ∧
    ("\x7b\"numbers\":null\x7d" : String) ≠ "\x7b\"numbers\":[]\x7d" := by
  have h0 : setToArray (∅ : IntSet) = [] := by simp [setToArray]
  constructor
  · show some (⟨200, "application/json", marshalNumbers (setToArray ∅)⟩ : HttpResponse) = _
    rw [h0]
    rfl
  · decide

/-- C1 amended: whenever collection produces the empty sequence (zero
identifiers, or every source failed or timed out), the handler responds
with success status 200 and body `\x7b"numbers":null\x7d`: the `numbers`
key is present but carries JSON `null`, not an empty array. -/
theorem empty_collect_yields_null_body (urls : List String) (events : List ChanEvent)
    (h : collectNumbers urls.length events = some []) :
    makeNumbersHandler urls events =
      some ⟨200, "application/json", "\x7b\"numbers\":null\x7d"⟩ := by
  rw [makeNumbersHandler, h]
  rfl

/-- C1 amended witness: zero identifiers and an empty trace produce the
200 response with the null body. -/
theorem empty_collect_yields_null_body_witness :
    makeNumbersHandler [] [] =
      some ⟨200, "application/json", "\x7b\"numbers\":null\x7d"⟩ :=
  empty_collect_yields_null_body [] []
    (by simp [collectNumbers, collectLoop, setToArray])
